import Mathlib

/-!
# Verification of the Word → PDF conversion service

A shallow embedding, in Lean 4, of the conversion service implemented in
`server.js` (with the legacy variant kept in the repository as an unnamed
second source file, here called "legacy").  The embedding covers:

* the subprocess supervisor `convertDocxToPdf` (server.js lines 51–166):
  the close-handler branching, the deadline timer with its two-stage kill
  escalation, and the output-directory scan;
* the `ConversionQueue` (server.js lines 15–46) as a timed transition
  system, together with a deterministic drain function mirroring
  `processQueue`;
* the request paths `/api/convert` (lines 240–334, no queue) and
  `/api/convert-sync` (lines 337–405, queued), their staging cleanup
  behaviour and their input validation;
* the webhook notifier of the asynchronous path (lines 260–318);
* the shape of the converter invocation (argument vector in `server.js`
  line 62, shell string in the legacy file).

All definitions are executable and translated directly from the named
source lines; theorems about them follow at the end of the file.
-/

namespace WordPdf

/-! ## Executable string primitives

JavaScript's `String.prototype.endsWith` / `startsWith`, modelled over
the character lists of Lean strings so that every definition in this file
evaluates inside the kernel (Lean's own `String.endsWith` is opaque to
kernel reduction). -/

/-- `s.endsWith(suffix)` of JavaScript. -/
def strEndsWith (s suffix : String) : Bool := suffix.data.isSuffixOf s.data

/-- `s.startsWith(p)` of JavaScript. -/
def strStartsWith (s p : String) : Bool := p.data.isPrefixOf s.data

/-- Strict lexicographic order on character lists (by code point), used
only to state what a "lexicographically first" selection would be. -/
def charListLt : List Char → List Char → Bool
  | [], [] => false
  | [], _ :: _ => true
  | _ :: _, [] => false
  | a :: as, b :: bs =>
      if a.toNat < b.toNat then true
      else if b.toNat < a.toNat then false
      else charListLt as bs

/-! ## Process supervisor: outcome of the close handler

`convertDocxToPdf` (server.js 51–166) resolves or rejects its promise in
the `close` handler of the spawned LibreOffice process (lines 107–149).
We reify the four possible settlements of that promise. -/

/-- The settlement of the `convertDocxToPdf` promise, as produced by the
`close` handler (server.js 107–149): the timeout rejection (line 119), the
nonzero-exit rejection (line 127), the missing-PDF rejection (line 136),
or resolution with the path of the generated PDF (line 144). -/
inductive ConvResult where
  /-- `reject` at line 119: timeout message carrying the configured
  timeout, the elapsed duration and both captured buffers. -/
  | timeoutErr (timeoutMs duration : Nat) (stdout stderr : String)
  /-- `reject` at line 127: nonzero (or signal, i.e. `null`) exit code. -/
  | exitErr (code : Option Int) (duration : Nat) (stdout stderr : String)
  /-- `reject` at line 136: no `.pdf` file in the output directory. -/
  | noPdf (outputDir : String) (files : List String)
  /-- `resolve` at line 144 with the joined path of the selected PDF. -/
  | pdfPath (p : String)
deriving DecidableEq, Repr

/-- The `close` handler of server.js lines 107–149, as a function of the
state it reads: the `processKilled` flag, the exit `code` delivered by the
`close` event (`none` when the process died from a signal), the captured
buffers, the elapsed duration, and the directory listing that
`fs.readdir(outputDir)` returns.  The PDF selection is
`files.filter(f => f.endsWith(".pdf"))[0]` (lines 134–140), i.e. the first
matching name in readdir enumeration order; `path.join` is modelled as
interposing a slash. -/
def closeHandler (processKilled : Bool) (timeoutMs duration : Nat)
    (stdout stderr : String) (code : Option Int)
    (outputDir : String) (files : List String) : ConvResult :=
  if processKilled then
    ConvResult.timeoutErr timeoutMs duration stdout stderr
  else if code ≠ some 0 then
    ConvResult.exitErr code duration stdout stderr
  else
    match files.filter (fun f => strEndsWith f ".pdf") with
    | [] => ConvResult.noPdf outputDir files
    | f :: _ => ConvResult.pdfPath (outputDir ++ "/" ++ f)

/-- Default `timeoutMs` parameter of `convertDocxToPdf` (server.js 51). -/
def defaultTimeoutMs : Nat := 60000

/-- Fixed grace period of the second (force-kill) timer (server.js 97–102). -/
def graceMs : Nat := 5000

/-- What one supervised run produces: which kill signals were sent and how
the promise settled. -/
structure RunResult where
  sigterm : Bool
  sigkill : Bool
  result : ConvResult
deriving DecidableEq, Repr

/-- One complete supervised run of `convertDocxToPdf` (server.js 51–166),
with the process's exit collapsed to a single wall-clock instant
`closeTime` (measured from the spawn, so the `duration` computed at line
108 equals `closeTime`) and its exit code `code` (`none` when killed by a
signal, in which case `child.exitCode` stays `null`).

* The deadline timer (line 90) fires iff the process has not closed by
  `timeoutMs`; its guard `!child.killed && child.exitCode === null` then
  holds, so it sets `processKilled`, sends SIGTERM (line 94) and schedules
  the grace timer.  If the process closes first, `clearTimeout` (line 109)
  cancels it.
* The grace timer (lines 97–102), once scheduled, always fires at
  `timeoutMs + graceMs` (nothing clears it); it sends SIGKILL iff
  `child.exitCode === null` at that instant, i.e. iff the process is still
  running or exited without a code (signal death). -/
def superviseRun (timeoutMs closeTime : Nat) (code : Option Int)
    (stdout stderr : String) (outputDir : String) (files : List String) :
    RunResult :=
  let timerFires := decide (timeoutMs < closeTime)
  let processKilled := timerFires
  { sigterm := timerFires
    sigkill := timerFires &&
      (decide (timeoutMs + graceMs < closeTime) || code == none)
    result := closeHandler processKilled timeoutMs closeTime
      stdout stderr code outputDir files }

/-! ## The serialization queue

`ConversionQueue` (server.js 15–46) keeps a FIFO list `queue` and a flag
`processing`.  `enqueue` (21–26) appends an entry and triggers
`processQueue`; `processQueue` (28–45) returns early when busy or empty,
otherwise shifts the head, marks busy, awaits the entry's callback,
resolves (or, on a throw, rejects) the caller, sleeps 1000 ms, clears the
busy flag and recurses.  We embed this as a timed transition system whose
state components mirror the JavaScript state, plus a log of completed
entries. -/

/-- Record of one completed queue entry: its id, the instant its callback
was dispatched, the instant its caller was resolved/rejected, and whether
the callback returned normally (`resolve`, line 36) or threw
(`reject`, line 38). -/
structure Rec where
  id : Nat
  dispT : Nat
  resT : Nat
  ok : Bool
deriving DecidableEq, Repr

/-- Where `processQueue` currently stands: idle (`processing = false`),
awaiting the head entry's callback (between lines 35 and 36), or inside
the 1000 ms cooldown of the `finally` block (line 41), after which
`processing` is reset. -/
inductive QPhase where
  | idle
  | running (id : Nat) (dispT : Nat)
  | cooling (r : Rec)
deriving DecidableEq, Repr

/-- The ids currently owned by `processQueue` (shifted off the pending
list but not yet fully drained). -/
def QPhase.activeIds : QPhase → List Nat
  | QPhase.idle => []
  | QPhase.running id _ => [id]
  | QPhase.cooling r => [r.id]

/-- State of the `ConversionQueue`: wall clock of the latest event,
the pending list `this.queue`, the `processing` phase, the completed
records in dispatch order, and the ids ever enqueued in arrival order. -/
structure QState where
  now : Nat
  pending : List Nat
  phase : QPhase
  done : List Rec
  enqLog : List Nat
deriving DecidableEq, Repr

/-- The queue as constructed at server.js line 48: empty, not processing. -/
def initQ : QState := { now := 0, pending := [], phase := QPhase.idle,
                        done := [], enqLog := [] }

/-- One event of the `ConversionQueue`.  Times only move forward; the
cooldown completes exactly 1000 ms after the resolution that started it
(`setTimeout(resolve, 1000)` at line 41), at which point `processing`
becomes false (line 42) and the next head may be dispatched (line 43
recursing into line 29's guard). -/
inductive QStep : QState → QState → Prop where
  /-- `enqueue` (lines 21–26): push the entry; possible in any phase. -/
  | enqueue (s : QState) (id t : Nat) (ht : s.now ≤ t) :
      QStep s { s with
                now := t
                pending := s.pending ++ [id]
                enqLog := s.enqLog ++ [id] }
  /-- `processQueue` past its guard (lines 29–32): only when not
  processing and the pending list is nonempty; shifts the head. -/
  | dispatch (s : QState) (id : Nat) (rest : List Nat) (t : Nat)
      (hp : s.phase = QPhase.idle) (hq : s.pending = id :: rest)
      (ht : s.now ≤ t) :
      QStep s { s with
                now := t
                pending := rest
                phase := QPhase.running id t }
  /-- The awaited callback settles (lines 34–38): the caller's promise is
  resolved (`ok = true`) or rejected (`ok = false`), exactly once, and the
  `finally` cooldown begins. -/
  | settle (s : QState) (id dispT : Nat) (ok : Bool) (t : Nat)
      (hp : s.phase = QPhase.running id dispT) (ht : s.now ≤ t) :
      QStep s { s with
                now := t
                phase := QPhase.cooling
                  { id := id, dispT := dispT, resT := t, ok := ok } }
  /-- The 1000 ms cooldown elapses (lines 41–42): `processing := false`. -/
  | cooled (s : QState) (r : Rec) (hp : s.phase = QPhase.cooling r) :
      QStep s { s with
                now := max s.now (r.resT + 1000)
                phase := QPhase.idle
                done := s.done ++ [r] }

/-- States reachable from the freshly constructed queue. -/
inductive QReach : QState → Prop where
  | init : QReach initQ
  | step {s t : QState} : QReach s → QStep s t → QReach t

/-- `chainOKb lb rs = true` iff the records `rs` occur strictly
sequentially: each dispatch is no earlier than `lb`, each resolution no
earlier than its dispatch, and each later record's dispatch waits out the
previous record's resolution plus the full 1000 ms cooldown. -/
def chainOKb : Nat → List Rec → Bool
  | _, [] => true
  | lb, r :: rs =>
      decide (lb ≤ r.dispT) && decide (r.dispT ≤ r.resT) &&
        chainOKb (r.resT + 1000) rs

/-- Earliest instant the queue may dispatch after the completed records:
starting from lower bound `lb`, each record pushes the bound to its
resolution plus the 1000 ms cooldown. -/
def lastLB (lb : Nat) : List Rec → Nat
  | [] => lb
  | r :: rs => lastLB (r.resT + 1000) rs

/-! ## Deterministic drain

`processQueue`'s recursion (lines 28–45), specialised to a pending list
that is fully enqueued up front: each entry is dispatched, its callback
runs for its duration and either returns (`resolve`) or throws
(`reject`), and the next dispatch happens 1000 ms after the resolution.
Note the `finally` block recurses whether or not the callback threw, so a
throwing entry is followed by the next entry exactly like a returning
one. -/

/-- An entry's behaviour: its id, how long its callback runs, and whether
the callback returns normally (`ok = true`) or throws. -/
structure JobSpec where
  id : Nat
  dur : Nat
  ok : Bool
deriving DecidableEq, Repr

/-- Drain a pending list starting at instant `t`, producing one completed
record per entry, in order (server.js 28–45). -/
def drain (t : Nat) : List JobSpec → List Rec
  | [] => []
  | j :: rest =>
      { id := j.id, dispT := t, resT := t + j.dur, ok := j.ok } ::
        drain (t + j.dur + 1000) rest

/-! ## The two request paths and their converter windows

`/api/convert` (server.js 240–334) calls `convertDocxToPdfFromUrl`
directly at line 260 — "Start conversion asynchronously (don't wait)" —
without touching `conversionQueue`.  `/api/convert-sync` (337–405) routes
its work through `conversionQueue.enqueue` at line 353.  We schedule a
list of requests (in arrival order) into wall-clock execution windows:
non-queued requests start at their arrival instant, queued ones when both
their arrival has happened and the queue is free, freeing it again only
after their duration plus the 1000 ms cooldown. -/

/-- The two conversion endpoints of server.js. -/
inductive Endpoint where
  | convertAsync
  | convertSync
deriving DecidableEq, Repr

/-- Whether the endpoint hands its conversion to `conversionQueue`:
`/api/convert-sync` does (line 353); `/api/convert` does not (line 260). -/
def usesQueue : Endpoint → Bool
  | Endpoint.convertAsync => false
  | Endpoint.convertSync => true

/-- An accepted conversion request: endpoint, arrival instant, and how
long its converter execution takes. -/
structure Req where
  ep : Endpoint
  arrival : Nat
  dur : Nat
deriving DecidableEq, Repr

/-- Execution windows `(start, stop)` of a list of accepted requests in
arrival order, given the instant `qFree` at which the queue next becomes
idle. -/
def schedule (qFree : Nat) : List Req → List (Nat × Nat)
  | [] => []
  | r :: rs =>
      if usesQueue r.ep then
        let st := max r.arrival qFree
        (st, st + r.dur) :: schedule (st + r.dur + 1000) rs
      else
        (r.arrival, r.arrival + r.dur) :: schedule qFree rs

/-- Two half-open wall-clock windows overlap. -/
def overlaps (a b : Nat × Nat) : Bool := decide (max a.1 b.1 < min a.2 b.2)

/-- `sepChain lb ws = true` iff the windows `ws` are sequential: each
starts no earlier than `lb` and no later than it stops, and each later
window starts only 1000 ms after the previous one stopped. -/
def sepChain : Nat → List (Nat × Nat) → Bool
  | _, [] => true
  | lb, w :: ws =>
      decide (lb ≤ w.1) && decide (w.1 ≤ w.2) && sepChain (w.2 + 1000) ws

/-! ## Staging artifacts and their cleanup

Two staging artifacts matter per job: the input `.docx` written by
`convertDocxToPdf` (server.js 54–57) and the output directory created by
its caller.  We track their existence through the filesystem operations
each code path performs. -/

/-- Presence on disk of the job's two staging artifacts. -/
structure Staging where
  inputFile : Bool
  outputDir : Bool
deriving DecidableEq, Repr

/-- The filesystem operations the conversion paths perform on the two
staging artifacts (writes/removals of the PDF live inside the output
directory and are subsumed by its recursive removal). -/
inductive FsOp where
  | writeInput
  | unlinkInput
  | mkdirOut
  | rmOutRecursive
deriving DecidableEq, Repr

/-- Effect of one operation on the staging artifacts. -/
def applyOp : Staging → FsOp → Staging
  | s, FsOp.writeInput => { s with inputFile := true }
  | s, FsOp.unlinkInput => { s with inputFile := false }
  | s, FsOp.mkdirOut => { s with outputDir := true }
  | s, FsOp.rmOutRecursive => { s with outputDir := false }

/-- Run a sequence of filesystem operations. -/
def runOps (ops : List FsOp) (s : Staging) : Staging := ops.foldl applyOp s

/-- Staging operations of `convertDocxToPdf` itself (server.js 51–166):
the input file is written at line 57; the `close` handler unlinks it at
line 112 on every exit of the child (success, failure or timeout), and
the spawn-`error` handler unlinks it at line 157.  Deletion errors are
swallowed and logged (112–114, 157–159). -/
def innerOps : List FsOp := [FsOp.writeInput, FsOp.unlinkInput]

/-- Staging operations of `convertDocxToPdfFromUrl` (server.js 169–219)
given whether the download succeeds and whether the conversion promise
resolves.  Download failure: `mkdir` (190) never ran, and the `catch`
still issues `fs.rm(outputDir, {recursive, force})` at line 213 (a no-op
with errors swallowed).  Conversion success: cleanup at lines 202–203.
Conversion failure: the `catch` removes the output directory at 213. -/
def fromUrlOps (downloadOk convOk : Bool) : List FsOp :=
  if !downloadOk then [FsOp.rmOutRecursive]
  else if convOk then
    FsOp.mkdirOut :: innerOps ++ [FsOp.rmOutRecursive]
  else
    FsOp.mkdirOut :: innerOps ++ [FsOp.rmOutRecursive]

/-- Staging operations of the `/api/convert-sync` callback (server.js
353–393).  Download failure: the `catch` at 390–392 only logs and
rethrows, and `mkdir` (366) never ran.  Conversion success: cleanup at
lines 378–379.  Conversion failure: the `catch` at 390–392 only logs and
rethrows — no `fs.rm` of the output directory created at line 366. -/
def syncOps (downloadOk convOk : Bool) : List FsOp :=
  if !downloadOk then []
  else if convOk then
    FsOp.mkdirOut :: innerOps ++ [FsOp.rmOutRecursive]
  else
    FsOp.mkdirOut :: innerOps

/-! ## Notifier of the asynchronous path

After `convertDocxToPdfFromUrl` settles, `/api/convert` delivers the
outcome to `callbackUrl` (server.js 261–318): the `.then` branch issues
one `fetch` (line 270) inside `try/catch`, logging a success (285), a
non-2xx response (288) or a thrown network error (291); the `.catch`
branch issues one `fetch` (line 301) inside `try/catch`, logging success
(314) or error (316).  No branch retries, rethrows, or alters the
conversion outcome. -/

/-- How the single webhook `fetch` of a delivery attempt turns out. -/
inductive FetchRes where
  | ok2xx
  | non2xx (status : Nat)
  | netError
deriving DecidableEq, Repr

/-- What the notifier logged about its one attempt. -/
inductive NotifyLog where
  | sentOk
  | non2xxLogged (status : Nat)
  | errorLogged
deriving DecidableEq, Repr

/-- A settled conversion as seen by `/api/convert`'s notification code:
the `.then` branch with the PDF bytes, or the `.catch` branch with the
failure message. -/
inductive JobOutcome where
  | completed (pdf : String)
  | failed (msg : String)
deriving DecidableEq, Repr

/-- Observable effect of notifying one job's outcome. -/
structure NotifyResult where
  attempts : Nat
  raisedPastNotifier : Bool
  recordedOutcome : JobOutcome
  log : NotifyLog
deriving DecidableEq, Repr

/-- The notification step of `/api/convert` (server.js 261–318) for a
settled conversion `conv` whose webhook `fetch` behaves as `f`. -/
def notifyJob (conv : JobOutcome) (f : FetchRes) : NotifyResult :=
  match conv with
  | JobOutcome.completed pdf =>
      match f with
      | FetchRes.ok2xx =>
          { attempts := 1, raisedPastNotifier := false,
            recordedOutcome := JobOutcome.completed pdf,
            log := NotifyLog.sentOk }
      | FetchRes.non2xx st =>
          { attempts := 1, raisedPastNotifier := false,
            recordedOutcome := JobOutcome.completed pdf,
            log := NotifyLog.non2xxLogged st }
      | FetchRes.netError =>
          { attempts := 1, raisedPastNotifier := false,
            recordedOutcome := JobOutcome.completed pdf,
            log := NotifyLog.errorLogged }
  | JobOutcome.failed e =>
      match f with
      | FetchRes.ok2xx =>
          { attempts := 1, raisedPastNotifier := false,
            recordedOutcome := JobOutcome.failed e, log := NotifyLog.sentOk }
      | FetchRes.non2xx st =>
          { attempts := 1, raisedPastNotifier := false,
            recordedOutcome := JobOutcome.failed e,
            log := NotifyLog.non2xxLogged st }
      | FetchRes.netError =>
          { attempts := 1, raisedPastNotifier := false,
            recordedOutcome := JobOutcome.failed e,
            log := NotifyLog.errorLogged }

/-! ## Shape of the converter invocation

`server.js` spawns LibreOffice through `spawn(cmd, argv)` (lines 62–70):
the paths are separate argv entries and no shell parses them.  The legacy
source file instead interpolates the paths into a template string and
runs it through `exec` (its lines 40–45), i.e. through a shell. -/

/-- How a child process is started: `spawn` with an argument vector, or
`exec` of a shell-interpreted command line. -/
inductive SpawnMethod where
  | vector (cmd : String) (args : List String)
  | shellCmd (line : String)
deriving DecidableEq, Repr

/-- The invocation uses a shell-interpreted command line. -/
def SpawnMethod.usesShell : SpawnMethod → Bool
  | SpawnMethod.vector _ _ => false
  | SpawnMethod.shellCmd _ => true

/-- The converter invocation of `convertDocxToPdf` in server.js lines
62–70: `spawn('libreoffice', [...])` with the output directory and the
input path as separate vector entries. -/
def serverSpawnCall (outputDir inputFile : String) : SpawnMethod :=
  SpawnMethod.vector "libreoffice"
    ["--headless", "--convert-to", "pdf", "--outdir", outputDir, inputFile]

/-- The converter invocation of the legacy source file, lines 40–45:
`execAsync` of a template string with the two paths interpolated inside
double quotes. -/
def legacySpawnCall (outputDir inputFile : String) : SpawnMethod :=
  SpawnMethod.shellCmd
    ("libreoffice --headless --convert-to pdf --outdir \"" ++ outputDir ++
      "\" \"" ++ inputFile ++ "\"")

/-! ## Input validation on the two request paths

`convertDocxToPdfFromUrl` (server.js 170–173) rejects the sentinels
`test` and `health-check` and any reference not starting with `http`
before anything else runs.  The `/api/convert-sync` callback (353–389)
has no such guard: its first action is the `fetch` of the URL (357). -/

/-- The observable actions of a conversion attempt, in order. -/
inductive Step where
  | validateUrl
  | download
  | mkdirOut
  | spawnConverter
  | readPdf
  | cleanup
deriving DecidableEq, Repr

/-- The guard of `convertDocxToPdfFromUrl`, server.js line 171. -/
def invalidDocxUrl (docxUrl : String) : Bool :=
  docxUrl == "test" || docxUrl == "health-check" ||
    !(strStartsWith docxUrl "http")

/-- Actions performed by `convertDocxToPdfFromUrl` (server.js 169–198):
the guard runs first and throws on unusable input, so nothing else runs;
otherwise download, staging, conversion, read, cleanup follow. -/
def fromUrlSteps (docxUrl : String) : List Step :=
  if invalidDocxUrl docxUrl then [Step.validateUrl]
  else [Step.validateUrl, Step.download, Step.mkdirOut,
        Step.spawnConverter, Step.readPdf, Step.cleanup]

/-- Actions performed by the `/api/convert-sync` callback (server.js
353–389) on `docxUrl`: no validation — the first action is the download
`fetch` at line 357, for every input; only a failing download (which
throws at 359 or inside `fetch` itself) stops the converter from being
spawned. -/
def syncSteps (_docxUrl : String) (downloadOk : Bool) : List Step :=
  if downloadOk then
    [Step.download, Step.mkdirOut, Step.spawnConverter, Step.readPdf,
     Step.cleanup]
  else [Step.download]

/-! ## Helper lemmas -/

/-- The head of a filtered list is the first element satisfying the
predicate. -/
lemma head?_filter_eq_find? {α : Type} (p : α → Bool) (l : List α) :
    (l.filter p).head? = l.find? p := by
  induction l with
  | nil => rfl
  | cons a l ih =>
      by_cases h : p a
      · simp [List.filter_cons, h, List.find?_cons_of_pos]
      · simp only [List.filter_cons, h]
        simp [List.find?_cons_of_neg _ h, ih]

/-! ## Claims about the process supervisor -/

/-- **C1.** If the child has not exited when the deadline timer (default
60000 ms) expires, the supervisor sends SIGTERM; if it still has not
exited when the fixed 5-second grace period ends, it also sends SIGKILL;
and the job settles with the timeout failure carrying the elapsed
duration and the captured stdout/stderr buffers. -/
theorem timeout_escalation_and_outcome (timeoutMs closeTime : Nat)
    (code : Option Int) (stdout stderr outputDir : String)
    (files : List String) (h : timeoutMs < closeTime) :
    (superviseRun timeoutMs closeTime code stdout stderr outputDir
      files).sigterm = true
    ∧ (timeoutMs + graceMs < closeTime →
        (superviseRun timeoutMs closeTime code stdout stderr outputDir
          files).sigkill = true)
    ∧ (superviseRun timeoutMs closeTime code stdout stderr outputDir
        files).result
      = ConvResult.timeoutErr timeoutMs closeTime stdout stderr
    ∧ defaultTimeoutMs = 60000 ∧ graceMs = 5000 := by
  refine ⟨?_, ?_, ?_, rfl, rfl⟩
  · simp [superviseRun, h]
  · intro h2
    simp [superviseRun, h, h2]
  · simp [superviseRun, closeHandler, h]

/-- Witness for `timeout_escalation_and_outcome` at a run whose process
survives 6000 ms against a 100 ms deadline. -/
theorem timeout_escalation_and_outcome_witness :
    (superviseRun 100 6000 (some 0) "out" "err" "od" ["a.pdf"]).sigterm
      = true
    ∧ (100 + graceMs < 6000 →
        (superviseRun 100 6000 (some 0) "out" "err" "od"
          ["a.pdf"]).sigkill = true)
    ∧ (superviseRun 100 6000 (some 0) "out" "err" "od" ["a.pdf"]).result
      = ConvResult.timeoutErr 100 6000 "out" "err"
    ∧ defaultTimeoutMs = 60000 ∧ graceMs = 5000 :=
  timeout_escalation_and_outcome 100 6000 (some 0) "out" "err" "od"
    ["a.pdf"] (by decide)

/-- **C10.** Once the deadline timer has fired (`processKilled` set,
SIGTERM sent), the settlement is the timeout failure whatever the exit
code and whatever the output directory holds — in particular a child that
exits 0 after the soft kill is still reported as a timeout, never as a
completed conversion. -/
theorem soft_kill_forces_timeout (timeoutMs duration : Nat)
    (stdout stderr : String) (code : Option Int) (outputDir : String)
    (files : List String) :
    closeHandler true timeoutMs duration stdout stderr code outputDir
      files = ConvResult.timeoutErr timeoutMs duration stdout stderr
    ∧ ∀ k, (superviseRun timeoutMs (timeoutMs + 1 + k) (some 0) stdout
        stderr outputDir files).result
      = ConvResult.timeoutErr timeoutMs (timeoutMs + 1 + k) stdout
          stderr := by
  constructor
  · simp [closeHandler]
  · intro k
    have hlt : timeoutMs < timeoutMs + 1 + k := by omega
    simp [superviseRun, closeHandler, hlt]

/-- **C5, counterexample.** With `readdir` enumerating `b.pdf` before
`a.pdf`, the code resolves with `b.pdf` although the lexicographically
first match is `a.pdf`: the selection is enumeration order, not
lexicographic order. -/
theorem pdf_selection_not_lexicographic :
    closeHandler false 60000 500 "" "" (some 0) "od" ["b.pdf", "a.pdf"]
      = ConvResult.pdfPath "od/b.pdf"
    ∧ "a.pdf" ∈ ["b.pdf", "a.pdf"].filter (fun f => strEndsWith f ".pdf")
    ∧ charListLt "a.pdf".data "b.pdf".data = true
    ∧ ("od/b.pdf" : String) ≠ "od/a.pdf" := by
  refine ⟨by decide, by decide, by decide, by decide⟩

/-- **C5, amended.** When the converter exits 0 and was not killed, the
scan of the output directory yields: no `.pdf` name in the listing — the
missing-output rejection; otherwise — resolution with the *first* `.pdf`
name in the listing's enumeration order (which is what `filter(...)[0]`
computes), joined to the output directory. -/
theorem success_scan_first_listed_pdf (t d : Nat) (out err dir : String)
    (files : List String) :
    closeHandler false t d out err (some 0) dir files
      = match files.find? (fun f => strEndsWith f ".pdf") with
        | none => ConvResult.noPdf dir files
        | some f => ConvResult.pdfPath (dir ++ "/" ++ f) := by
  have hf := head?_filter_eq_find? (fun f => strEndsWith f ".pdf") files
  rw [← hf]
  cases hl : files.filter (fun f => strEndsWith f ".pdf") with
  | nil => simp [closeHandler, hl]
  | cons f fs => simp [closeHandler, hl]

/-! ## Claims about staging cleanup, notification, spawning, validation -/

/-- **C6** (code bug exhibited).  Starting from a clean filesystem,
`convertDocxToPdfFromUrl` leaves neither staging artifact behind on any
of its exit paths (download failure, conversion failure, success), and
the `/api/convert-sync` callback cleans up on success — but when its
conversion fails after a successful download, the output directory
created at server.js line 366 is still on disk after the job resolves:
the `catch` at lines 390–392 only logs and rethrows. -/
theorem sync_failure_leaks_output_dir :
    (∀ dOk cOk,
      runOps (fromUrlOps dOk cOk) { inputFile := false, outputDir := false }
        = { inputFile := false, outputDir := false })
    ∧ runOps (syncOps true true) { inputFile := false, outputDir := false }
      = { inputFile := false, outputDir := false }
    ∧ runOps (syncOps true false) { inputFile := false, outputDir := false }
      = { inputFile := false, outputDir := true } := by
  refine ⟨?_, by decide, by decide⟩
  intro dOk cOk
  cases dOk <;> cases cOk <;> decide

/-- **C7.** For every settled asynchronous job, exactly one callback
delivery attempt is made; a non-2xx response or a network error is
logged, never retried, never raised past the notification code, and the
job's recorded outcome is unchanged by the delivery result. -/
theorem webhook_single_attempt_no_raise (conv : JobOutcome)
    (f : FetchRes) :
    (notifyJob conv f).attempts = 1
    ∧ (notifyJob conv f).raisedPastNotifier = false
    ∧ (notifyJob conv f).recordedOutcome = conv := by
  cases conv <;> cases f <;> simp [notifyJob]

/-- **C8, counterexample.** The repository does not *always* pass the
converter's arguments as a vector: the legacy source file runs the
converter through `exec` of a shell-interpreted command line with both
paths interpolated into it. -/
theorem legacy_spawn_uses_shell :
    (legacySpawnCall "/tmp/out" "/tmp/in.docx").usesShell = true
    ∧ legacySpawnCall "/tmp/out" "/tmp/in.docx"
      = SpawnMethod.shellCmd
          "libreoffice --headless --convert-to pdf --outdir \"/tmp/out\" \"/tmp/in.docx\"" := by
  constructor
  · rfl
  · rfl

/-- **C8, amended.** `server.js` itself always spawns the converter with
its arguments as a vector — the output directory and the input path are
separate argv entries, and no shell-interpreted command line is involved;
only the legacy source file uses a shell string. -/
theorem server_spawn_is_vector (outputDir inputFile : String) :
    (serverSpawnCall outputDir inputFile).usesShell = false
    ∧ serverSpawnCall outputDir inputFile
      = SpawnMethod.vector "libreoffice"
          ["--headless", "--convert-to", "pdf", "--outdir", outputDir,
           inputFile]
    ∧ (legacySpawnCall outputDir inputFile).usesShell = true :=
  ⟨rfl, rfl, rfl⟩

/-- **C9, counterexample.** On the synchronous path the sentinel `test`
is *not* rejected before a download is attempted: the callback's first
action is the download `fetch`, and no validation step exists on that
path — even though the same input is flagged invalid by the guard the
asynchronous path uses. -/
theorem sync_path_downloads_sentinel :
    (syncSteps "test" false).head? = some Step.download
    ∧ Step.validateUrl ∉ syncSteps "test" false
    ∧ Step.validateUrl ∉ syncSteps "test" true
    ∧ invalidDocxUrl "test" = true := by
  refine ⟨rfl, by decide, by decide, by decide⟩

/-- **C9, amended.** For every sentinel (`test`, `health-check`) or
non-`http` input, the asynchronous path (`convertDocxToPdfFromUrl`)
fails fast at its guard: no download is attempted and no converter
process is spawned.  The synchronous path has no such guard — its first
action is always the download attempt — though a failing download still
prevents any converter process from being spawned there. -/
theorem invalid_input_fails_fast_async_only (docxUrl : String)
    (h : invalidDocxUrl docxUrl = true) :
    fromUrlSteps docxUrl = [Step.validateUrl]
    ∧ Step.download ∉ fromUrlSteps docxUrl
    ∧ Step.spawnConverter ∉ fromUrlSteps docxUrl
    ∧ (∀ dOk, (syncSteps docxUrl dOk).head? = some Step.download)
    ∧ Step.spawnConverter ∉ syncSteps docxUrl false := by
  refine ⟨by simp [fromUrlSteps, h], by simp [fromUrlSteps, h],
    by simp [fromUrlSteps, h], ?_, by simp [syncSteps]⟩
  intro dOk
  cases dOk <;> rfl

/-- Witness for `invalid_input_fails_fast_async_only` at the sentinel
`test`. -/
theorem invalid_input_fails_fast_async_only_witness :
    fromUrlSteps "test" = [Step.validateUrl]
    ∧ Step.download ∉ fromUrlSteps "test"
    ∧ Step.spawnConverter ∉ fromUrlSteps "test"
    ∧ (∀ dOk, (syncSteps "test" dOk).head? = some Step.download)
    ∧ Step.spawnConverter ∉ syncSteps "test" false :=
  invalid_input_fails_fast_async_only "test" (by decide)

/-! ## Claims about concurrency across the two endpoints -/

/-- Windows further down a separated chain start no earlier than the
chain's lower bound. -/
lemma sepChain_lb_le {lb : Nat} {ws : List (Nat × Nat)}
    (h : sepChain lb ws = true) : ∀ w ∈ ws, lb ≤ w.1 := by
  induction ws generalizing lb with
  | nil => simp
  | cons w ws ih =>
      simp only [sepChain, Bool.and_eq_true, decide_eq_true_eq] at h
      intro b hb
      cases hb with
      | head => exact h.1.1
      | tail _ hb =>
          have := ih h.2 b hb
          omega

/-- A separated chain of windows is pairwise non-overlapping. -/
lemma sepChain_pairwise_disjoint {lb : Nat} {ws : List (Nat × Nat)}
    (h : sepChain lb ws = true) :
    List.Pairwise (fun a b => overlaps a b = false) ws := by
  induction ws generalizing lb with
  | nil => exact List.Pairwise.nil
  | cons w ws ih =>
      simp only [sepChain, Bool.and_eq_true, decide_eq_true_eq] at h
      refine List.Pairwise.cons ?_ (ih h.2)
      intro b hb
      have hble := sepChain_lb_le h.2 b hb
      simp only [overlaps, decide_eq_false_iff_not, not_lt]
      omega

/-- Requests routed through the queue produce a separated chain of
windows. -/
lemma schedule_sync_sepChain (qFree : Nat) (reqs : List Req)
    (h : ∀ r ∈ reqs, r.ep = Endpoint.convertSync) :
    sepChain qFree (schedule qFree reqs) = true := by
  induction reqs generalizing qFree with
  | nil => rfl
  | cons r rs ih =>
      have hr : r.ep = Endpoint.convertSync := h r (by simp)
      have hrest : ∀ x ∈ rs, x.ep = Endpoint.convertSync := by
        intro x hx; exact h x (by simp [hx])
      simp only [schedule, hr, usesQueue, if_true, sepChain,
        Bool.and_eq_true, decide_eq_true_eq]
      exact ⟨⟨Nat.le_max_right _ _, Nat.le_add_right _ _⟩, ih _ hrest⟩

/-- **C3, counterexample.** Two requests accepted on the asynchronous
endpoint one millisecond apart, each converting for 10 ms: `/api/convert`
starts `convertDocxToPdfFromUrl` immediately (server.js 260), bypassing
`conversionQueue`, so the two converter executions occupy overlapping
wall-clock windows. -/
theorem async_requests_overlap :
    schedule 0
        [{ ep := Endpoint.convertAsync, arrival := 0, dur := 10 },
         { ep := Endpoint.convertAsync, arrival := 1, dur := 10 }]
      = [(0, 10), (1, 11)]
    ∧ overlaps (0, 10) (1, 11) = true
    ∧ usesQueue Endpoint.convertAsync = false := by
  refine ⟨rfl, by decide, rfl⟩

/-- **C3, amended.** Only conversions submitted through the synchronous
endpoint are serialized: any list of accepted `/api/convert-sync`
requests executes in pairwise disjoint wall-clock windows (each later
window starting only after the previous one ends plus the cooldown),
while `/api/convert` requests bypass the queue and may overlap. -/
theorem sync_requests_never_overlap (qFree : Nat) (reqs : List Req)
    (h : ∀ r ∈ reqs, r.ep = Endpoint.convertSync) :
    List.Pairwise (fun a b => overlaps a b = false)
      (schedule qFree reqs) :=
  sepChain_pairwise_disjoint (schedule_sync_sepChain qFree reqs h)

/-- Witness for `sync_requests_never_overlap`: two back-to-back
synchronous requests. -/
theorem sync_requests_never_overlap_witness :
    List.Pairwise (fun a b => overlaps a b = false)
      (schedule 0
        [{ ep := Endpoint.convertSync, arrival := 0, dur := 5 },
         { ep := Endpoint.convertSync, arrival := 0, dur := 7 }]) :=
  sync_requests_never_overlap 0
    [{ ep := Endpoint.convertSync, arrival := 0, dur := 5 },
     { ep := Endpoint.convertSync, arrival := 0, dur := 7 }]
    (by decide)

/-! ## Claims about the queue drain -/

/-- **C4.** Draining a pending list resolves every enqueued job exactly
once — one completed record per entry, in arrival order — and each
record carries that entry's own settlement (`resolve` on a normal return,
`reject` on a throw).  In particular an entry whose callback throws
(`ok = false`) is followed by records for all later entries: the
`finally` block of `processQueue` recurses regardless, so one job's
failure never blocks or cancels the rest. -/
theorem every_job_resolves_exactly_once (t : Nat) (js : List JobSpec) :
    ((drain t js).map fun r => (r.id, r.ok))
      = js.map (fun j => (j.id, j.ok))
    ∧ (drain t js).length = js.length := by
  have hmap : ∀ u : Nat, ((drain u js).map fun r => (r.id, r.ok))
      = js.map (fun j => (j.id, j.ok)) := by
    induction js with
    | nil => intro u; rfl
    | cons j rest ih => intro u; simp [drain, ih]
  refine ⟨hmap t, ?_⟩
  have := congrArg List.length (hmap t)
  simpa using this

/-! ## Claims about the queue transition system -/

/-- Appending one well-placed record preserves a sequential chain. -/
lemma chainOKb_append {lb : Nat} {l : List Rec} {r : Rec}
    (h : chainOKb lb l = true) (h1 : lastLB lb l ≤ r.dispT)
    (h2 : r.dispT ≤ r.resT) : chainOKb lb (l ++ [r]) = true := by
  induction l generalizing lb with
  | nil =>
      simp only [List.nil_append, chainOKb, Bool.and_eq_true,
        decide_eq_true_eq]
      exact ⟨⟨h1, h2⟩, trivial⟩
  | cons a l ih =>
      simp only [chainOKb, Bool.and_eq_true, decide_eq_true_eq] at h
      simp only [List.cons_append, chainOKb, Bool.and_eq_true,
        decide_eq_true_eq]
      exact ⟨h.1, ih h.2 h1⟩

/-- The lower bound after a chain extended by one record. -/
lemma lastLB_append (lb : Nat) (l : List Rec) (r : Rec) :
    lastLB lb (l ++ [r]) = r.resT + 1000 := by
  induction l generalizing lb with
  | nil => rfl
  | cons a l ih => simpa [lastLB] using ih (a.resT + 1000)

/-- Every record in a sequential chain resolves no earlier than it was
dispatched. -/
lemma chainOKb_dispT_le_resT {lb : Nat} {l : List Rec}
    (h : chainOKb lb l = true) : ∀ r ∈ l, r.dispT ≤ r.resT := by
  induction l generalizing lb with
  | nil => simp
  | cons a l ih =>
      simp only [chainOKb, Bool.and_eq_true, decide_eq_true_eq] at h
      intro r hr
      cases hr with
      | head => exact h.1.2
      | tail _ hr => exact ih h.2 r hr

/-- The head of a sequential chain is dispatched no earlier than the
lower bound. -/
lemma chainOKb_head {lb : Nat} {x : Rec} {xs : List Rec}
    (h : chainOKb lb (x :: xs) = true) : lb ≤ x.dispT := by
  simp only [chainOKb, Bool.and_eq_true, decide_eq_true_eq] at h
  exact h.1.1

/-- A sequential chain yields the consecutive-records property: each
dispatch waits out the previous resolution plus the 1000 ms cooldown. -/
lemma chainOKb_chain' {lb : Nat} {l : List Rec}
    (h : chainOKb lb l = true) :
    List.Chain' (fun a b => a.resT + 1000 ≤ b.dispT) l := by
  induction l generalizing lb with
  | nil => exact List.chain'_nil
  | cons a l ih =>
      simp only [chainOKb, Bool.and_eq_true, decide_eq_true_eq] at h
      refine List.chain'_cons'.mpr ⟨?_, ih h.2⟩
      intro y hy
      cases l with
      | nil => simp at hy
      | cons b l =>
          simp only [List.head?_cons, Option.mem_def, Option.some.injEq]
            at hy
          exact hy ▸ chainOKb_head h.2

/-- Timing constraints the queue state must satisfy, by phase: completed
records plus the in-flight record (if any) form a sequential chain that
has not outrun the wall clock. -/
def phaseBound : QPhase → List Rec → Nat → Prop
  | QPhase.idle, done, now => lastLB 0 done ≤ now
  | QPhase.running _ d, done, now => lastLB 0 done ≤ d ∧ d ≤ now
  | QPhase.cooling r, done, now =>
      lastLB 0 done ≤ r.dispT ∧ r.dispT ≤ r.resT ∧ r.resT ≤ now

/-- Invariant of the `ConversionQueue`: the enqueue log splits exactly
into the completed ids (in dispatch order), the at-most-one id currently
owned by `processQueue`, and the pending list (in arrival order); the
completed records form a sequential chain; and the chain respects the
wall clock. -/
def queueInv (s : QState) : Prop :=
  s.enqLog = s.done.map Rec.id ++ s.phase.activeIds ++ s.pending
  ∧ chainOKb 0 s.done = true
  ∧ phaseBound s.phase s.done s.now

/-- Every queue event preserves the invariant. -/
lemma queueInv_step {s t : QState} (hst : QStep s t) (h : queueInv s) :
    queueInv t := by
  obtain ⟨hfifo, hchain, hbound⟩ := h
  cases hst with
  | enqueue id tt ht =>
      refine ⟨?_, hchain, ?_⟩
      · simp only [hfifo, List.append_assoc]
      · cases hph : s.phase with
        | idle =>
            rw [hph] at hbound
            simp only [phaseBound] at hbound ⊢
            omega
        | running i d =>
            rw [hph] at hbound
            simp only [phaseBound] at hbound ⊢
            omega
        | cooling r =>
            rw [hph] at hbound
            simp only [phaseBound] at hbound ⊢
            omega
  | dispatch id rest tt hp hq ht =>
      rw [hp] at hbound
      simp only [phaseBound] at hbound
      refine ⟨?_, hchain, ?_⟩
      · rw [hfifo, hp, hq]
        simp [QPhase.activeIds]
      · simp only [phaseBound]
        omega
  | settle id dispT ok tt hp ht =>
      rw [hp] at hbound
      simp only [phaseBound] at hbound
      refine ⟨?_, hchain, ?_⟩
      · rw [hfifo, hp]
        simp [QPhase.activeIds]
      · simp only [phaseBound]
        exact ⟨hbound.1, hbound.2.trans ht, le_refl tt⟩
  | cooled r hp =>
      rw [hp] at hbound
      simp only [phaseBound] at hbound
      refine ⟨?_, ?_, ?_⟩
      · rw [hfifo, hp]
        simp [QPhase.activeIds]
      · exact chainOKb_append hchain hbound.1 hbound.2.1
      · simp only [phaseBound, lastLB_append]
        exact le_max_right _ _

/-- The invariant holds in every reachable queue state. -/
lemma queueInv_reach {s : QState} (h : QReach s) : queueInv s := by
  induction h with
  | init => exact ⟨rfl, rfl, Nat.le_refl 0⟩
  | step _ hst ih => exact queueInv_step hst ih

/-- **C2.** In every reachable state of the `ConversionQueue`: the ids
ever enqueued are exactly the completed ids (in dispatch order) followed
by the at-most-one id currently being processed and then the pending ids
in arrival order — so dispatch order is exactly arrival (FIFO) order; at
most one entry is dispatched at a time; each entry resolves no earlier
than its dispatch; and every consecutive pair of completed entries is
separated by the full cooldown: the later dispatch happens no earlier
than the earlier resolution plus 1000 ms. -/
theorem queue_fifo_serial_cooldown (s : QState) (h : QReach s) :
    s.enqLog = s.done.map Rec.id ++ s.phase.activeIds ++ s.pending
    ∧ s.phase.activeIds.length ≤ 1
    ∧ (∀ r ∈ s.done, r.dispT ≤ r.resT)
    ∧ List.Chain' (fun a b => a.resT + 1000 ≤ b.dispT) s.done := by
  obtain ⟨hfifo, hchain, _⟩ := queueInv_reach h
  refine ⟨hfifo, ?_, chainOKb_dispT_le_resT hchain,
    chainOKb_chain' hchain⟩
  cases s.phase <;> simp [QPhase.activeIds]

/-- A concrete reachable queue state: jobs 7 and 8 enqueued at instant 0,
job 7 dispatched at 0 and resolved at 5, job 8 dispatched at 1005 (after
the cooldown) and rejected at 1010, both cooldowns elapsed. -/
def qDemo : QState :=
  { now := 2010, pending := [], phase := QPhase.idle,
    done := [{ id := 7, dispT := 0, resT := 5, ok := true },
             { id := 8, dispT := 1005, resT := 1010, ok := false }],
    enqLog := [7, 8] }

/-- The demo state is reachable. -/
lemma qDemo_reachable : QReach qDemo := by
  have h1 := QReach.step QReach.init
    (QStep.enqueue initQ 7 0 (Nat.le_refl 0))
  have h2 := QReach.step h1 (QStep.enqueue _ 8 0 (Nat.le_refl 0))
  have h3 := QReach.step h2
    (QStep.dispatch _ 7 [8] 0 rfl rfl (Nat.le_refl 0))
  have h4 := QReach.step h3
    (QStep.settle _ 7 0 true 5 rfl (by decide))
  have h5 := QReach.step h4
    (QStep.cooled _ { id := 7, dispT := 0, resT := 5, ok := true } rfl)
  have h6 := QReach.step h5
    (QStep.dispatch _ 8 [] 1005 rfl rfl (by decide))
  have h7 := QReach.step h6
    (QStep.settle _ 8 1005 false 1010 rfl (by decide))
  have h8 := QReach.step h7
    (QStep.cooled _
      { id := 8, dispT := 1005, resT := 1010, ok := false } rfl)
  exact h8

/-- Witness for `queue_fifo_serial_cooldown` at the reachable state
`qDemo`. -/
theorem queue_fifo_serial_cooldown_witness :
    qDemo.enqLog
      = qDemo.done.map Rec.id ++ qDemo.phase.activeIds ++ qDemo.pending
    ∧ qDemo.phase.activeIds.length ≤ 1
    ∧ (∀ r ∈ qDemo.done, r.dispT ≤ r.resT)
    ∧ List.Chain' (fun a b => a.resT + 1000 ≤ b.dispT) qDemo.done :=
  queue_fifo_serial_cooldown qDemo qDemo_reachable

end WordPdf
